import Mathlib

/-!
Verification development for the `pearl` repository (single source file
`functionalpearl.py`): a daily dollar-cost-averaging trading bot that each
cycle fetches candle data, computes RSI/EMA indicators, evaluates two
threshold rules, and simulates (never submits) a buy order, with the whole
cycle body wrapped in a catch-all exception handler inside an endless
scheduler loop.

Numbers are modelled as rationals (`ℚ`), timestamps as integers.  The
exchange response and every fallible step of the cycle are modelled with
`Except`/`Option`; console output is modelled as a list of effect events.
-/

namespace Pearl

/-- Raw bar as delivered by the exchange `get_kline` response
(`result.list`): a timestamp plus a close field.  The close arrives as text
and is converted with `astype(float)` (line 86); we model the conversion
result directly: `none` means the text does not parse as a number, in which
case the conversion raises.  The remaining columns (open, high, low,
volume, turnover) are carried in the frame but never read by the logic, so
they are omitted from the model. -/
structure RawBar where
  timestamp : Int
  closeRaw : Option ℚ
deriving DecidableEq

/-- Candle of the canonicalized series: timestamp plus parsed close. -/
structure Candle where
  timestamp : Int
  close : ℚ
deriving DecidableEq

/-- Kline response of the exchange adapter (`session.get_kline`): a return
code, a message and the list of raw bars (newest first per the Bybit API,
see the comment on line 87 of the source). -/
structure KlineResponse where
  retCode : Int
  retMsg : String
  list : List RawBar
deriving DecidableEq

/-- Strategy configuration (source lines 35–39): RSI buy threshold, EMA
filter flag and EMA period. -/
structure StrategyConfig where
  rsiBuyThreshold : ℚ
  useEmaFilter : Bool
  emaPeriod : ℕ
deriving DecidableEq

/-- The module-level `strategy_config` of the source
(threshold 50, EMA filter on, EMA period 50). -/
def strategy_config : StrategyConfig :=
  { rsiBuyThreshold := 50, useEmaFilter := true, emaPeriod := 50 }

/-- Error taxonomy of the spec (§7) mapped onto the failure points of the
cycle body: `malformedData` for a close field that fails the float
conversion on line 86, `insufficientData` for indicator computation on an
empty series, `indexError` for reading the latest value of an empty
column (`iloc[-1]`), `adapterError` for an exception raised inside the
fetch call. -/
inductive CoreError
  | malformedData
  | insufficientData
  | indexError
  | adapterError (code : Int) (msg : String)
deriving DecidableEq

/-- Parse one raw bar into a candle (the `astype(float)` conversion of
the close column, line 86); fails if the close text is unparseable. -/
def parseCandle (b : RawBar) : Option Candle :=
  b.closeRaw.map (fun c => { timestamp := b.timestamp, close := c })

/-- Parse every raw bar, failing as a whole if any single close fails the
conversion (the column-wide `astype(float)` of line 86). -/
def parseAll : List RawBar → Option (List Candle)
  | [] => some []
  | b :: rest =>
    match parseCandle b, parseAll rest with
    | some c, some cs => some (c :: cs)
    | _, _ => none

/-- Candle Series Model constructor, source lines 85–87: build the frame
from the raw list (`pd.DataFrame(klines, columns=...)`, which performs no
validation of the row count), convert the close column to numbers
(`astype(float)`, raising `malformedData` on unparseable text), and
reverse the rows (`df.iloc[::-1]`) because the exchange returns newest
first.  Note that the rows are only reversed, never sorted. -/
def buildCandleSeries (klines : List RawBar) : Except CoreError (List Candle) :=
  match parseAll klines with
  | none => .error .malformedData
  | some cs => .ok cs.reverse

/-! ### Indicator Calculator

Modelled from the spec: the indicator computations are delegated by the
source (lines 91–93) to the third-party `pandas_ta` library
(`df.ta.rsi(append=True)` and `df.ta.ema(length=...)`), whose code is not
part of this repository.  The definitions below follow §4.2 of the spec:
Wilder RSI with period 14 (per-step gains/losses from the previous close,
running averages seeded by the simple average of the first `period` values
and then updated by `avg = (avg*(period-1) + current)/period`, warm-up
indices using the same formula on the available prefix, RSI = 100 when the
average loss is 0), and an EMA with smoothing factor `2/(period+1)` seeded
by the simple average of the first `period` closes; both fail with
`InsufficientDataError` exactly on the empty series. -/

/-- Gain of one step: the positive part of the close-to-close difference. -/
def gainOf (d : ℚ) : ℚ := max d 0

/-- Loss of one step: the positive part of the negated difference. -/
def lossOf (d : ℚ) : ℚ := max (-d) 0

/-- Successive differences of a list of closes (`close.diff()`),
one entry per step from the previous close. -/
def diffs : List ℚ → List ℚ
  | a :: b :: t => (b - a) :: diffs (b :: t)
  | _ => []

/-- Per-step gains of a close series. -/
def gainsOf (closes : List ℚ) : List ℚ := (diffs closes).map gainOf

/-- Per-step losses of a close series. -/
def lossesOf (closes : List ℚ) : List ℚ := (diffs closes).map lossOf

/-- One step of the Wilder running average: while fewer than `period`
values have been seen the state holds the simple average of the values so
far (so the value at the end of the seed window is the simple average of
the first `period` values); afterwards the Wilder recurrence
`avg = (avg*(period-1) + v)/period`.  The state is (count, average). -/
def wStep (period : ℕ) (st : ℕ × ℚ) (v : ℚ) : ℕ × ℚ :=
  if st.1 < period then (st.1 + 1, (st.2 * st.1 + v) / (st.1 + 1))
  else (st.1 + 1, (st.2 * ((period : ℚ) - 1) + v) / period)

/-- Emit the running value after each input: the state-passing scan used
by both indicator computations (one output per input value). -/
def scanVals (step : ℕ × ℚ → ℚ → ℕ × ℚ) (st : ℕ × ℚ) : List ℚ → List ℚ
  | [] => []
  | v :: rest => (step st v).2 :: scanVals step (step st v) rest

/-- Wilder running averages of a value sequence, one per input value. -/
def wAvgs (period : ℕ) (vals : List ℚ) : List ℚ :=
  scanVals (wStep period) (0, 0) vals

/-- RSI value from an average gain and an average loss: 100 when the
average loss is 0, otherwise `100 - 100/(1 + avgGain/avgLoss)`. -/
def rsiFromAvg (avgGain avgLoss : ℚ) : ℚ :=
  if avgLoss = 0 then 100 else 100 - 100 / (1 + avgGain / avgLoss)

/-- RSI series of a close series (period explicit; the program uses 14):
index 0 has no previous close, so both running averages are still 0 and
the value is `rsiFromAvg 0 0 = 100`; every later index pairs the Wilder
running average gain and loss of the steps seen so far. -/
def computeRSI (period : ℕ) (closes : List ℚ) : List ℚ :=
  match closes with
  | [] => []
  | _ :: _ =>
    rsiFromAvg 0 0 ::
      List.zipWith rsiFromAvg (wAvgs period (gainsOf closes)) (wAvgs period (lossesOf closes))

/-- One step of the EMA: during the first `period` closes the state holds
the simple average of the closes so far (so the value at the end of the
warm-up is the simple average of the first `period` closes, the seed);
afterwards `ema = close*k + ema*(1-k)` with `k = 2/(period+1)`. -/
def emaStep (period : ℕ) (st : ℕ × ℚ) (c : ℚ) : ℕ × ℚ :=
  if st.1 < period then (st.1 + 1, (st.2 * st.1 + c) / (st.1 + 1))
  else (st.1 + 1, c * (2 / ((period : ℚ) + 1)) + st.2 * (1 - 2 / ((period : ℚ) + 1)))

/-- EMA series of a close series, one value per close. -/
def computeEMA (period : ℕ) (closes : List ℚ) : List ℚ :=
  scanVals (emaStep period) (0, 0) closes

/-- Fallible RSI entry point: fails with `insufficientData` exactly on the
empty series, otherwise computes the full period-14 RSI series. -/
def computeRSIE (closes : List ℚ) : Except CoreError (List ℚ) :=
  if closes.isEmpty then .error .insufficientData else .ok (computeRSI 14 closes)

/-- Fallible EMA entry point: fails with `insufficientData` exactly on the
empty series. -/
def computeEMAE (period : ℕ) (closes : List ℚ) : Except CoreError (List ℚ) :=
  if closes.isEmpty then .error .insufficientData else .ok (computeEMA period closes)

/-- Reference Wilder running average for the refinement claim, stated the
way the spec words it, on the reversed prefix (most recent value first):
while at most `period` values are present the average is the plain
`sum/length`; afterwards the newest value updates the average of the rest
by `avg = (avg*(period-1) + v)/period`. -/
def wAvgRefRev (period : ℕ) : List ℚ → ℚ
  | [] => 0
  | v :: earlier =>
    if earlier.length + 1 ≤ period then (earlier.sum + v) / (earlier.length + 1)
    else (wAvgRefRev period earlier * ((period : ℚ) - 1) + v) / period

/-- Reference Wilder running average of a chronological value prefix. -/
def wAvgRef (period : ℕ) (vals : List ℚ) : ℚ := wAvgRefRev period vals.reverse

/-! ### Decision Engine (source lines 107–119) -/

/-- Snapshot of the latest indicator values read on lines 97–104:
the EMA is present exactly when the EMA filter is enabled. -/
structure IndicatorSnapshot where
  latestClose : ℚ
  latestRSI : ℚ
  latestEMA : Option ℚ
deriving DecidableEq

/-- Reasons printed for unmet buy conditions (lines 112 and 118); the
exact wording is not a compatibility surface, so reasons are tags. -/
inductive Reason
  | rsiNotBelowThreshold
  | priceNotBelowEMA
deriving DecidableEq

/-- Trade decision: the `buy_conditions_met` flag plus the ordered unmet
reasons. -/
structure TradeDecision where
  shouldBuy : Bool
  reasons : List Reason
deriving DecidableEq

/-- Decision Engine, source lines 107–119: `buy_conditions_met` starts
true; it is cleared (with a reason) when `latest_rsi >= threshold`
(line 111) and, independently, when the EMA filter is enabled and
`latest_close >= latest_ema` (line 117).  Both conditions are always
evaluated; both use `>=`, so equality counts as not met. -/
def evaluate (snap : IndicatorSnapshot) (cfg : StrategyConfig) : TradeDecision :=
  let cond1 : Bool := decide (cfg.rsiBuyThreshold ≤ snap.latestRSI)
  let cond2 : Bool := cfg.useEmaFilter &&
    (match snap.latestEMA with
     | some e => decide (e ≤ snap.latestClose)
     | none => false)
  { shouldBuy := !cond1 && !cond2
    reasons :=
      (if cond1 then [Reason.rsiNotBelowThreshold] else []) ++
      (if cond2 then [Reason.priceNotBelowEMA] else []) }

/-! ### Evaluation cycle (`execute_trade_logic`, source lines 60–155) -/

/-- Order request as it would be sent to `session.place_order`
(the commented-out block on lines 129–135). -/
structure OrderRequest where
  category : String
  symbol : String
  side : String
  orderType : String
  qty : ℚ
deriving DecidableEq

/-- Console output events of one cycle, one tag per print site of the
source (exact wording is not a compatibility surface). -/
inductive PrintLine
  | runningLogic      -- line 64
  | errorFetching     -- line 79 (non-zero retCode)
  | latestData        -- line 99
  | emaValue          -- line 104
  | reasonRSI         -- line 112
  | reasonEMA         -- line 118
  | conditionsMet     -- line 124
  | simulation        -- line 147
  | noAction          -- line 151
  | unexpectedError   -- line 155 (the except handler)
deriving DecidableEq

/-- Observable effect of a cycle: either a printed console line or an
order submitted to the Execution Adapter. -/
inductive Effect
  | printed (line : PrintLine)
  | orderPlaced (req : OrderRequest)
deriving DecidableEq

/-- Console print of one unmet-condition reason. -/
def reasonPrint : Reason → Effect
  | .rsiNotBelowThreshold => .printed .reasonRSI
  | .priceNotBelowEMA => .printed .reasonEMA

/-- Outcome of one evaluation cycle. -/
inductive CycleOutcome
  | fetchRejected          -- non-zero retCode: early return on line 80
  | caughtError (e : CoreError)  -- exception caught by the handler on line 154
  | noAction               -- conditions not met (line 151)
  | simulated              -- all conditions met, simulation printed (line 147)
deriving DecidableEq

/-- Result of one cycle: its outcome plus the emitted effects, in order. -/
structure CycleResult where
  outcome : CycleOutcome
  effects : List Effect
deriving DecidableEq

/-- Body of the `try` block (lines 68–151), as a function of the strategy
configuration and of the adapter's fetch result for this cycle (the fetch
itself may raise, modelled by an `Except.error` input).  Returns the
effects printed so far together with either the cycle outcome or the
error raised, so that a raise does not lose the output already printed. -/
def tryBody (scfg : StrategyConfig) (fetch : Except CoreError KlineResponse) :
    List Effect × Except CoreError CycleOutcome :=
  match fetch with
  | .error e => ([], .error e)
  | .ok resp =>
    if resp.retCode ≠ 0 then
      ([Effect.printed .errorFetching], .ok .fetchRejected)
    else
      match buildCandleSeries resp.list with
      | .error e => ([], .error e)
      | .ok series =>
        let closes := series.map Candle.close
        match computeRSIE closes with
        | .error e => ([], .error e)
        | .ok rsiSeq =>
          match (if scfg.useEmaFilter then (computeEMAE scfg.emaPeriod closes).map some
                 else .ok none) with
          | .error e => ([], .error e)
          | .ok emaSeq? =>
            match closes.getLast?, rsiSeq.getLast? with
            | some latestClose, some latestRSI =>
              let eff1 := [Effect.printed .latestData]
              match (match emaSeq? with
                     | none => Except.ok none
                     | some es =>
                       match es.getLast? with
                       | some e => Except.ok (some e)
                       | none => Except.error CoreError.indexError) with
              | .error e => (eff1, .error e)
              | .ok latestEMA =>
                let eff2 := eff1 ++ (if latestEMA.isSome then [Effect.printed .emaValue] else [])
                let d := evaluate ⟨latestClose, latestRSI, latestEMA⟩ scfg
                let eff3 := eff2 ++ d.reasons.map reasonPrint
                if d.shouldBuy then
                  (eff3 ++ [Effect.printed .conditionsMet, Effect.printed .simulation],
                   .ok .simulated)
                else
                  (eff3 ++ [Effect.printed .noAction], .ok .noAction)
            | _, _ => ([], .error .indexError)

/-- One full run of `execute_trade_logic` (lines 60–155): print the
start-of-cycle line, run the `try` body, and catch any raised error at the
cycle boundary, reporting it with a printed line and never re-raising. -/
def execute_trade_logic (scfg : StrategyConfig)
    (fetch : Except CoreError KlineResponse) : CycleResult :=
  match (tryBody scfg fetch).2 with
  | .ok o => ⟨o, Effect.printed .runningLogic :: (tryBody scfg fetch).1⟩
  | .error e =>
    ⟨.caughtError e,
     Effect.printed .runningLogic :: ((tryBody scfg fetch).1 ++ [Effect.printed .unexpectedError])⟩

/-- Scheduler Loop (lines 161–179): each trigger of the schedule invokes
`execute_trade_logic` once; the list of fetch results stands for the
successive cycles' interactions with the adapter (one entry per trigger,
in order). -/
def schedulerRun (scfg : StrategyConfig)
    (fetches : List (Except CoreError KlineResponse)) : List CycleResult :=
  match fetches with
  | [] => []
  | f :: rest => execute_trade_logic scfg f :: schedulerRun scfg rest

/-- Default kline response used as `getD` fallback in theorem statements. -/
def defaultResp : KlineResponse := { retCode := 0, retMsg := "OK", list := [] }

/-- Default cycle result used as `getD` fallback in theorem statements. -/
def emptyResult : CycleResult := { outcome := .noAction, effects := [] }

/-! ### Helper lemmas -/

lemma scanVals_length (step : ℕ × ℚ → ℚ → ℕ × ℚ) (l : List ℚ) :
    ∀ st : ℕ × ℚ, (scanVals step st l).length = l.length := by
  induction l with
  | nil => intro st; rfl
  | cons v rest ih => intro st; simp [scanVals, ih]

lemma scanVals_take (step : ℕ × ℚ → ℚ → ℕ × ℚ) (l : List ℚ) :
    ∀ (st : ℕ × ℚ) (n : ℕ), scanVals step st (l.take n) = (scanVals step st l).take n := by
  induction l with
  | nil => intro st n; simp [scanVals]
  | cons v rest ih =>
    intro st n
    cases n with
    | zero => simp [scanVals]
    | succ m => simp [scanVals, List.take_succ_cons, ih]

lemma scanVals_getD (step : ℕ × ℚ → ℚ → ℕ × ℚ) (l : List ℚ) :
    ∀ (st : ℕ × ℚ) (j : ℕ), j < l.length →
      (scanVals step st l).getD j 0 = (List.foldl step st (l.take (j + 1))).2 := by
  induction l with
  | nil => intro st j h; simp at h
  | cons v rest ih =>
    intro st j h
    cases j with
    | zero => simp [scanVals]
    | succ m =>
      have hm : m < rest.length := by simpa using h
      simp only [scanVals, List.getD_cons_succ, List.take_succ_cons, List.foldl_cons]
      exact ih (step st v) m hm

lemma diffs_length : ∀ l : List ℚ, (diffs l).length = l.length - 1
  | [] => rfl
  | [_] => rfl
  | a :: b :: t => by
    simp [diffs, diffs_length (b :: t)]

lemma diffs_take : ∀ (l : List ℚ) (n : ℕ), diffs (l.take (n + 1)) = (diffs l).take n
  | [], _ => by simp [diffs]
  | [_], _ => by simp [diffs]
  | _ :: _ :: _, 0 => by simp [diffs]
  | a :: b :: t, n + 1 => by
    have ih := diffs_take (b :: t) n
    simp only [List.take_succ_cons] at ih ⊢
    simp [diffs, ih]

lemma getD_zipWith (f : ℚ → ℚ → ℚ) :
    ∀ (as bs : List ℚ) (j : ℕ), j < as.length → j < bs.length →
      (List.zipWith f as bs).getD j 0 = f (as.getD j 0) (bs.getD j 0)
  | [], _, j, h, _ => by simp at h
  | _ :: _, [], j, _, h => by simp at h
  | a :: as, b :: bs, 0, _, _ => by simp
  | a :: as, b :: bs, j + 1, h1, h2 => by
    simp only [List.zipWith_cons_cons, List.getD_cons_succ]
    exact getD_zipWith f as bs j (by simpa using h1) (by simpa using h2)

lemma mem_zipWith_cases (f : ℚ → ℚ → ℚ) :
    ∀ (as bs : List ℚ) (x : ℚ), x ∈ List.zipWith f as bs →
      ∃ a, a ∈ as ∧ ∃ b, b ∈ bs ∧ x = f a b
  | [], _, x, h => by simp at h
  | _ :: _, [], x, h => by simp at h
  | a :: as, b :: bs, x, h => by
    rcases List.mem_cons.mp (by simpa using h) with h1 | h1
    · exact ⟨a, List.mem_cons_self a as, b, List.mem_cons_self b bs, h1⟩
    · obtain ⟨a', ha, b', hb, hx⟩ := mem_zipWith_cases f as bs x h1
      exact ⟨a', List.mem_cons_of_mem _ ha, b', List.mem_cons_of_mem _ hb, hx⟩

lemma wStep_nonneg (period : ℕ) (hp : 1 ≤ period) (st : ℕ × ℚ) (v : ℚ)
    (hst : 0 ≤ st.2) (hv : 0 ≤ v) : 0 ≤ (wStep period st v).2 := by
  have hc : (0 : ℚ) ≤ (st.1 : ℚ) := by positivity
  have h1 : (1 : ℚ) ≤ (period : ℚ) := by exact_mod_cast hp
  by_cases h : st.1 < period
  · simp only [wStep, h, if_true]
    exact div_nonneg (by nlinarith) (by positivity)
  · simp only [wStep, h, if_false]
    exact div_nonneg (by nlinarith) (by positivity)

lemma scanVals_wStep_nonneg (period : ℕ) (hp : 1 ≤ period) :
    ∀ (vals : List ℚ) (st : ℕ × ℚ), 0 ≤ st.2 → (∀ v ∈ vals, 0 ≤ v) →
      ∀ x ∈ scanVals (wStep period) st vals, 0 ≤ x
  | [], _, _, _, x, hx => by simp [scanVals] at hx
  | v :: rest, st, hst, hv, x, hx => by
    have hv0 : 0 ≤ v := hv v (List.mem_cons_self v rest)
    have hst' : 0 ≤ (wStep period st v).2 := wStep_nonneg period hp st v hst hv0
    rcases List.mem_cons.mp (by simpa [scanVals] using hx) with rfl | hx'
    · exact hst'
    · exact scanVals_wStep_nonneg period hp rest (wStep period st v) hst'
        (fun w hw => hv w (List.mem_cons_of_mem _ hw)) x hx'

lemma wAvgs_nonneg (period : ℕ) (hp : 1 ≤ period) (vals : List ℚ)
    (hvals : ∀ v ∈ vals, 0 ≤ v) : ∀ x ∈ wAvgs period vals, 0 ≤ x :=
  scanVals_wStep_nonneg period hp vals (0, 0) le_rfl hvals

lemma rsiFromAvg_bounds (g l : ℚ) (hg : 0 ≤ g) (hl : 0 ≤ l) :
    0 ≤ rsiFromAvg g l ∧ rsiFromAvg g l ≤ 100 := by
  unfold rsiFromAvg
  split
  · norm_num
  · rename_i hne
    have hlpos : 0 < l := lt_of_le_of_ne hl (Ne.symm hne)
    have hrs : 0 ≤ g / l := div_nonneg hg hl
    have hD : (0 : ℚ) < 1 + g / l := by linarith
    constructor
    · have hle : 100 / (1 + g / l) ≤ 100 := by
        rw [div_le_iff₀ hD]; nlinarith
      linarith
    · have hpos : 0 < 100 / (1 + g / l) := by positivity
      linarith

lemma wAvgRefRev_seed (period : ℕ) :
    ∀ ys : List ℚ, ys.length ≤ period → wAvgRefRev period ys = ys.sum / ys.length
  | [], _ => by simp [wAvgRefRev]
  | v :: rest, h => by
    have hc : rest.length + 1 ≤ period := by simpa using h
    simp only [wAvgRefRev, hc, if_true, List.sum_cons, List.length_cons]
    push_cast
    ring_nf

lemma wStep_mk (period k : ℕ) (a v : ℚ) :
    wStep period (k, a) v =
      if k < period then (k + 1, (a * k + v) / (k + 1))
      else (k + 1, (a * ((period : ℚ) - 1) + v) / period) := rfl

lemma wAvgRefRev_cons (period : ℕ) (v : ℚ) (earlier : List ℚ) :
    wAvgRefRev period (v :: earlier) =
      if earlier.length + 1 ≤ period then (earlier.sum + v) / (earlier.length + 1)
      else (wAvgRefRev period earlier * ((period : ℚ) - 1) + v) / period := rfl

lemma foldl_wStep_eq (period : ℕ) (xs : List ℚ) :
    List.foldl (wStep period) (0, 0) xs = (xs.length, wAvgRefRev period xs.reverse) := by
  induction xs using List.reverseRecOn with
  | nil => simp [wAvgRefRev]
  | append_singleton xs x ih =>
    rw [List.foldl_append, ih, List.foldl_cons, List.foldl_nil, List.reverse_append]
    simp only [List.reverse_cons, List.reverse_nil, List.nil_append, List.singleton_append,
      List.length_append, List.length_singleton]
    rw [wStep_mk, wAvgRefRev_cons, List.length_reverse]
    by_cases h : xs.length < period
    · rw [if_pos h, if_pos (by omega)]
      refine congrArg (Prod.mk _) ?_
      have hseed : wAvgRefRev period xs.reverse = xs.reverse.sum / xs.reverse.length :=
        wAvgRefRev_seed period xs.reverse (by rw [List.length_reverse]; omega)
      rw [hseed, List.length_reverse, List.sum_reverse]
      rcases Nat.eq_zero_or_pos xs.length with h0 | h0
      · obtain rfl : xs = [] := List.length_eq_zero.mp h0
        norm_num
      · have hne : ((xs.length : ℚ)) ≠ 0 := by positivity
        rw [div_mul_cancel₀ _ hne]
    · rw [if_neg h, if_neg (by omega)]

lemma wAvgs_getD (period : ℕ) (vals : List ℚ) (j : ℕ)
    (h : j < vals.length) :
    (wAvgs period vals).getD j 0 = wAvgRef period (vals.take (j + 1)) := by
  rw [wAvgs, scanVals_getD _ _ _ _ h, foldl_wStep_eq period, wAvgRef]

lemma parseAll_timestamps : ∀ (klines : List RawBar) (cs : List Candle),
    parseAll klines = some cs → cs.map Candle.timestamp = klines.map RawBar.timestamp
  | [], cs, h => by
    simp only [parseAll, Option.some_inj] at h
    subst h; rfl
  | b :: rest, cs, h => by
    simp only [parseAll] at h
    cases hb : parseCandle b with
    | none => rw [hb] at h; exact absurd h (by simp)
    | some c =>
      cases hr : parseAll rest with
      | none => rw [hb, hr] at h; exact absurd h (by simp)
      | some cs' =>
        rw [hb, hr] at h
        obtain rfl : c :: cs' = cs := by simpa using h
        have ht : c.timestamp = b.timestamp := by
          cases hcr : b.closeRaw with
          | none => simp [parseCandle, hcr] at hb
          | some q =>
            have hc : some ({ timestamp := b.timestamp, close := q } : Candle) = some c := by
              rw [← hb]; simp [parseCandle, hcr]
            rw [← Option.some_inj.mp hc]
        simp [ht, parseAll_timestamps rest cs' hr]

lemma computeRSI_length (period : ℕ) (closes : List ℚ) :
    (computeRSI period closes).length = closes.length := by
  cases closes with
  | nil => rfl
  | cons c rest =>
    simp [computeRSI, List.length_zipWith, wAvgs, scanVals_length, gainsOf, lossesOf,
      diffs_length]

lemma computeEMA_length (period : ℕ) (closes : List ℚ) :
    (computeEMA period closes).length = closes.length :=
  scanVals_length _ closes _

lemma computeRSI_take (period : ℕ) (closes : List ℚ) (n : ℕ) :
    computeRSI period (closes.take n) = (computeRSI period closes).take n := by
  cases closes with
  | nil => simp [computeRSI]
  | cons c rest =>
    cases n with
    | zero => simp [computeRSI]
    | succ m =>
      have h1 : diffs (c :: rest.take m) = (diffs (c :: rest)).take m := by
        have := diffs_take (c :: rest) m
        simpa [List.take_succ_cons] using this
      simp only [computeRSI, List.take_succ_cons, gainsOf, lossesOf, h1, List.map_take,
        wAvgs, scanVals_take, ← List.take_zipWith]

lemma computeEMA_take (period : ℕ) (closes : List ℚ) (n : ℕ) :
    computeEMA period (closes.take n) = (computeEMA period closes).take n :=
  scanVals_take _ closes _ n

lemma reasonPrint_ne_order (r : Reason) (req : OrderRequest) :
    reasonPrint r ≠ Effect.orderPlaced req := by
  cases r <;> simp [reasonPrint]

lemma schedulerRun_length (scfg : StrategyConfig) :
    ∀ fetches : List (Except CoreError KlineResponse),
      (schedulerRun scfg fetches).length = fetches.length
  | [] => rfl
  | _ :: rest => by simp [schedulerRun, schedulerRun_length scfg rest]

lemma schedulerRun_getD (scfg : StrategyConfig) :
    ∀ (fetches : List (Except CoreError KlineResponse)) (j : ℕ), j < fetches.length →
      (schedulerRun scfg fetches).getD j emptyResult =
        execute_trade_logic scfg (fetches.getD j (Except.ok defaultResp))
  | [], j, h => by simp at h
  | f :: rest, 0, _ => by simp [schedulerRun]
  | f :: rest, j + 1, h => by
    simp only [schedulerRun, List.getD_cons_succ]
    exact schedulerRun_getD scfg rest j (by simpa using h)

/-! ### Claim theorems -/

/-- C2: the decision evaluation uses strict inequality on the buy side of
both rules: if the latest RSI equals the buy threshold exactly, the RSI
condition is unmet (`shouldBuy` is false with an RSI reason), and if the
EMA filter is enabled and the latest close equals the latest EMA exactly,
the EMA condition is unmet (`shouldBuy` is false with a price-vs-EMA
reason). -/
theorem evaluate_strict_buy_boundaries (snap : IndicatorSnapshot) (cfg : StrategyConfig) :
    (snap.latestRSI = cfg.rsiBuyThreshold →
      (evaluate snap cfg).shouldBuy = false ∧
      Reason.rsiNotBelowThreshold ∈ (evaluate snap cfg).reasons) ∧
    (cfg.useEmaFilter = true → snap.latestEMA = some snap.latestClose →
      (evaluate snap cfg).shouldBuy = false ∧
      Reason.priceNotBelowEMA ∈ (evaluate snap cfg).reasons) := by
  constructor
  · intro h
    simp [evaluate, h]
  · intro hf he
    simp [evaluate, hf, he]

/-- Witness for C2 at the exact boundary snapshot (RSI = threshold = 50,
close = EMA = 50) under the module's strategy configuration. -/
theorem evaluate_strict_buy_boundaries_witness :
    (evaluate ⟨50, 50, some 50⟩ strategy_config).shouldBuy = false ∧
    Reason.rsiNotBelowThreshold ∈ (evaluate ⟨50, 50, some 50⟩ strategy_config).reasons ∧
    Reason.priceNotBelowEMA ∈ (evaluate ⟨50, 50, some 50⟩ strategy_config).reasons := by
  have h := evaluate_strict_buy_boundaries ⟨50, 50, some 50⟩ strategy_config
  exact ⟨(h.1 rfl).1, (h.1 rfl).2, (h.2 rfl rfl).2⟩

/-- C9: the decision evaluation is deterministic — identical snapshot and
config always produce an identical `TradeDecision` (flag and ordered
reasons); `evaluate` is a pure function of its two arguments with no
hidden state. -/
theorem evaluate_deterministic (s₁ s₂ : IndicatorSnapshot) (c₁ c₂ : StrategyConfig)
    (hs : s₁ = s₂) (hc : c₁ = c₂) :
    evaluate s₁ c₁ = evaluate s₂ c₂ ∧
    (evaluate s₁ c₁).shouldBuy = (evaluate s₂ c₂).shouldBuy ∧
    (evaluate s₁ c₁).reasons = (evaluate s₂ c₂).reasons := by
  subst hs; subst hc
  exact ⟨rfl, rfl, rfl⟩

/-- Witness for C9 at a concrete snapshot/config pair. -/
theorem evaluate_deterministic_witness :
    evaluate ⟨40, 30, none⟩ strategy_config = evaluate ⟨40, 30, none⟩ strategy_config ∧
    (evaluate ⟨40, 30, none⟩ strategy_config).shouldBuy =
      (evaluate ⟨40, 30, none⟩ strategy_config).shouldBuy ∧
    (evaluate ⟨40, 30, none⟩ strategy_config).reasons =
      (evaluate ⟨40, 30, none⟩ strategy_config).reasons :=
  evaluate_deterministic ⟨40, 30, none⟩ ⟨40, 30, none⟩ strategy_config strategy_config rfl rfl

/-- C4: on every non-empty close series both indicator computations
succeed (they fail, with the insufficient-data error, exactly on the empty
series), every produced value is a defined rational, and the value at any
index is obtained by the same smoothing formula applied to the available
prefix: computing on a prefix yields exactly the prefix of the computed
series. -/
theorem indicators_graceful_on_short_series (period : ℕ) (closes : List ℚ) :
    ((∃ rs, computeRSIE closes = Except.ok rs) ↔ closes ≠ []) ∧
    ((∃ es, computeEMAE period closes = Except.ok es) ↔ closes ≠ []) ∧
    (computeRSIE closes = Except.error CoreError.insufficientData ↔ closes = []) ∧
    (computeEMAE period closes = Except.error CoreError.insufficientData ↔ closes = []) ∧
    (∀ n, computeRSI 14 (closes.take n) = (computeRSI 14 closes).take n) ∧
    (∀ n, computeEMA period (closes.take n) = (computeEMA period closes).take n) := by
  refine ⟨?_, ?_, ?_, ?_, computeRSI_take 14 closes, computeEMA_take period closes⟩ <;>
    cases closes <;> simp [computeRSIE, computeEMAE]

/-- Witness for C4 on the concrete two-element series `[1, 2]`. -/
theorem indicators_graceful_witness :
    (∃ rs, computeRSIE [(1 : ℚ), 2] = Except.ok rs) ∧
    computeRSI 14 ([(1 : ℚ), 2].take 1) = (computeRSI 14 [(1 : ℚ), 2]).take 1 := by
  have h := indicators_graceful_on_short_series 50 [(1 : ℚ), 2]
  exact ⟨h.1.mpr (by decide), h.2.2.2.2.1 1⟩

/-- C8: on every non-empty close series the RSI and EMA sequences have
exactly the same length as the input series. -/
theorem indicator_lengths_match (period : ℕ) (closes rs es : List ℚ)
    (h1 : computeRSIE closes = Except.ok rs)
    (h2 : computeEMAE period closes = Except.ok es) :
    rs.length = closes.length ∧ es.length = closes.length := by
  cases closes with
  | nil => simp [computeRSIE] at h1
  | cons c rest =>
    obtain rfl : computeRSI 14 (c :: rest) = rs := by simpa [computeRSIE] using h1
    obtain rfl : computeEMA period (c :: rest) = es := by simpa [computeEMAE] using h2
    exact ⟨computeRSI_length 14 _, computeEMA_length period _⟩

/-- Witness for C8 on the concrete three-element series `[3, 1, 2]`. -/
theorem indicator_lengths_match_witness :
    (computeRSI 14 [(3 : ℚ), 1, 2]).length = 3 ∧
    (computeEMA 50 [(3 : ℚ), 1, 2]).length = 3 :=
  indicator_lengths_match 50 [(3 : ℚ), 1, 2] _ _ rfl rfl

/-- C5: every value of the computed RSI sequence of a non-empty close
series lies in the closed interval [0, 100]. -/
theorem rsi_within_bounds (closes rs : List ℚ)
    (h : computeRSIE closes = Except.ok rs) : ∀ x ∈ rs, 0 ≤ x ∧ x ≤ 100 := by
  cases closes with
  | nil => simp [computeRSIE] at h
  | cons c rest =>
    obtain rfl : computeRSI 14 (c :: rest) = rs := by simpa [computeRSIE] using h
    intro x hx
    rcases List.mem_cons.mp (by simpa [computeRSI] using hx) with rfl | hx'
    · norm_num [rsiFromAvg]
    · obtain ⟨g, hg, l, hl, rfl⟩ := mem_zipWith_cases rsiFromAvg _ _ x hx'
      have hgn : 0 ≤ g := by
        refine wAvgs_nonneg 14 (by norm_num) _ ?_ g hg
        intro v hv
        obtain ⟨d, _, rfl⟩ := List.mem_map.mp hv
        exact le_max_right d 0
      have hln : 0 ≤ l := by
        refine wAvgs_nonneg 14 (by norm_num) _ ?_ l hl
        intro v hv
        obtain ⟨d, _, rfl⟩ := List.mem_map.mp hv
        exact le_max_right (-d) 0
      exact rsiFromAvg_bounds g l hgn hln

/-- Witness for C5 at the head value of the RSI of `[1, 2]`. -/
theorem rsi_within_bounds_witness :
    0 ≤ (computeRSI 14 [(1 : ℚ), 2]).getD 0 0 ∧
    (computeRSI 14 [(1 : ℚ), 2]).getD 0 0 ≤ 100 :=
  rsi_within_bounds [1, 2] (computeRSI 14 [1, 2]) rfl _ (by decide)

/-- C7: the RSI series computed by the program equals Wilder's reference
formulation with period 14: at every index the value is produced from the
reference running average gain and loss of the steps seen so far (simple
average over at most the first `period` values, then
`avg = (avg*(period-1) + current)/period`), with RSI = 100 when the
average loss is 0 and `100 - 100/(1 + avgGain/avgLoss)` otherwise. -/
theorem rsi_matches_wilder_reference (closes : List ℚ) (hne : closes ≠ [])
    (i : ℕ) (hi : i < closes.length) :
    (computeRSI 14 closes).getD i 0 =
      rsiFromAvg (wAvgRef 14 ((gainsOf closes).take i))
        (wAvgRef 14 ((lossesOf closes).take i)) := by
  cases closes with
  | nil => exact absurd rfl hne
  | cons c rest =>
    cases i with
    | zero => simp [computeRSI, wAvgRef, wAvgRefRev]
    | succ j =>
      have hj : j < rest.length := by simpa using hi
      have hg : j < (gainsOf (c :: rest)).length := by
        simp only [gainsOf, List.length_map, diffs_length]
        simpa using hj
      have hl : j < (lossesOf (c :: rest)).length := by
        simp only [lossesOf, List.length_map, diffs_length]
        simpa using hj
      have hwg : j < (wAvgs 14 (gainsOf (c :: rest))).length := by
        rw [wAvgs, scanVals_length]; exact hg
      have hwl : j < (wAvgs 14 (lossesOf (c :: rest))).length := by
        rw [wAvgs, scanVals_length]; exact hl
      simp only [computeRSI, List.getD_cons_succ]
      rw [getD_zipWith rsiFromAvg _ _ j hwg hwl,
        wAvgs_getD 14 _ j hg, wAvgs_getD 14 _ j hl]

/-- Witness for C7 at index 2 of the decreasing series `[100, 99, 98]`. -/
theorem rsi_matches_wilder_witness :
    (computeRSI 14 [(100 : ℚ), 99, 98]).getD 2 0 =
      rsiFromAvg (wAvgRef 14 ((gainsOf [(100 : ℚ), 99, 98]).take 2))
        (wAvgRef 14 ((lossesOf [(100 : ℚ), 99, 98]).take 2)) :=
  rsi_matches_wilder_reference [100, 99, 98] (by decide) 2 (by decide)

/-- C6 counterexample: the constructor only reverses the raw sequence, it
does not sort it.  For the raw input with timestamps 1, 3, 2 (not
newest-first) the constructed view has timestamps 2, 3, 1, which is not
strictly ascending. -/
theorem reversal_is_not_sorting_counterexample :
    buildCandleSeries [⟨1, some 1⟩, ⟨3, some 1⟩, ⟨2, some 1⟩] =
      Except.ok [⟨2, 1⟩, ⟨3, 1⟩, ⟨1, 1⟩] ∧
    ¬ List.Sorted (· < ·)
      (([⟨2, (1 : ℚ)⟩, ⟨3, 1⟩, ⟨1, 1⟩] : List Candle).map Candle.timestamp) := by
  refine ⟨rfl, ?_⟩
  decide

/-- C6 amended: when the raw sequence is strictly descending by timestamp
(newest first, the exchange's documented order), the constructed series is
strictly ascending by timestamp, oldest first; arbitrary-order input is
only reversed, not canonicalized. -/
theorem series_ascending_of_descending_input (klines : List RawBar) (cs : List Candle)
    (hdesc : List.Sorted (· > ·) (klines.map RawBar.timestamp))
    (hok : buildCandleSeries klines = Except.ok cs) :
    List.Sorted (· < ·) (cs.map Candle.timestamp) := by
  unfold buildCandleSeries at hok
  cases hp : parseAll klines with
  | none => rw [hp] at hok; exact absurd hok (by simp)
  | some parsed =>
    rw [hp] at hok
    obtain rfl : parsed.reverse = cs := by simpa using hok
    rw [List.map_reverse, parseAll_timestamps klines parsed hp]
    exact List.pairwise_reverse.mpr hdesc

/-- Witness for the amended C6 on a concrete newest-first input. -/
theorem series_ascending_witness :
    List.Sorted (· < ·)
      (([⟨1, (5 : ℚ)⟩, ⟨2, 6⟩, ⟨3, 7⟩] : List Candle).map Candle.timestamp) :=
  series_ascending_of_descending_input
    [⟨3, some 7⟩, ⟨2, some 6⟩, ⟨1, some 5⟩] _ (by decide) rfl

/-- C3 counterexample: on the empty raw bar list the Candle Series Model
constructor does not fail — it yields an empty series (the frame
construction performs no row-count validation) — and the cycle then does
attempt indicator computation, whose insufficient-data failure is what the
cycle boundary catches. -/
theorem empty_series_counterexample :
    buildCandleSeries [] = Except.ok [] ∧
    (execute_trade_logic strategy_config
        (Except.ok { retCode := 0, retMsg := "OK", list := [] })).outcome =
      CycleOutcome.caughtError CoreError.insufficientData :=
  ⟨rfl, rfl⟩

/-- C3 amended: for the empty raw bar sequence the construction succeeds
with an empty series (no malformed-data error is raised, since the
constructor performs no bar-count validation); the cycle proceeds to
attempt indicator computation, which fails on the empty series, and that
failure is caught at the cycle boundary, for every strategy
configuration. -/
theorem empty_series_error_at_indicators (scfg : StrategyConfig) :
    buildCandleSeries [] = Except.ok [] ∧
    (execute_trade_logic scfg
        (Except.ok { retCode := 0, retMsg := "OK", list := [] })).outcome =
      CycleOutcome.caughtError CoreError.insufficientData := by
  refine ⟨rfl, ?_⟩
  simp [execute_trade_logic, tryBody, buildCandleSeries, parseAll, computeRSIE]

/-- Effects of the `try` body are only printed console lines — the body
never emits an order to the Execution Adapter — and the simulated outcome
always comes with the simulation message printed. -/
lemma tryBody_effects (scfg : StrategyConfig) (fetch : Except CoreError KlineResponse)
    (req : OrderRequest) :
    Effect.orderPlaced req ∉ (tryBody scfg fetch).1 ∧
    ((tryBody scfg fetch).2 = Except.ok CycleOutcome.simulated →
      Effect.printed PrintLine.simulation ∈ (tryBody scfg fetch).1) := by
  unfold tryBody
  cases fetch with
  | error e => simp
  | ok resp =>
    dsimp only
    by_cases hrc : resp.retCode ≠ 0
    · simp [hrc]
    · rw [if_neg hrc]
      cases hb : buildCandleSeries resp.list with
      | error e => simp
      | ok series =>
        dsimp only
        cases hr : computeRSIE (List.map Candle.close series) with
        | error e => simp
        | ok rsiSeq =>
          dsimp only
          cases he : (if scfg.useEmaFilter = true then
              Except.map some (computeEMAE scfg.emaPeriod (List.map Candle.close series))
            else Except.ok none) with
          | error e => simp
          | ok emaSeq? =>
            dsimp only
            cases hlc : (List.map Candle.close series).getLast? with
            | none => simp
            | some latestClose =>
              cases hlr : rsiSeq.getLast? with
              | none => simp
              | some latestRSI =>
                dsimp only
                cases hle : (match emaSeq? with
                    | none => Except.ok none
                    | some es =>
                      match es.getLast? with
                      | some e => Except.ok (some e)
                      | none => Except.error CoreError.indexError) with
                | error e => simp
                | ok latestEMA =>
                  dsimp only
                  by_cases hbuy :
                      (evaluate ⟨latestClose, latestRSI, latestEMA⟩ scfg).shouldBuy = true
                  · cases latestEMA <;> simp [hbuy, reasonPrint_ne_order]
                  · cases latestEMA <;> simp [hbuy, reasonPrint_ne_order]

/-- C10: in every evaluation cycle, whatever the configuration and
whatever the adapter returns, the program never submits an order to the
Execution Adapter; the only action on a buy decision is the printed
simulation message. -/
theorem cycle_never_places_order (scfg : StrategyConfig)
    (fetch : Except CoreError KlineResponse) :
    (∀ req, Effect.orderPlaced req ∉ (execute_trade_logic scfg fetch).effects) ∧
    ((execute_trade_logic scfg fetch).outcome = CycleOutcome.simulated →
      Effect.printed PrintLine.simulation ∈ (execute_trade_logic scfg fetch).effects) := by
  constructor
  · intro req
    have h := (tryBody_effects scfg fetch req).1
    cases h2 : (tryBody scfg fetch).2 with
    | ok o =>
      simp only [execute_trade_logic, h2]
      simp [h]
    | error e =>
      simp only [execute_trade_logic, h2]
      simp [h]
  · intro hout
    have h := (tryBody_effects scfg fetch ⟨"", "", "", "", 0⟩).2
    cases h2 : (tryBody scfg fetch).2 with
    | ok o =>
      rw [execute_trade_logic, h2] at hout ⊢
      simp only at hout
      subst hout
      simp [h h2]
    | error e =>
      rw [execute_trade_logic, h2] at hout
      simp at hout

/-- Witness for C10 on a cycle whose buy conditions are all met (RSI 0,
close below EMA): the outcome is simulated, the simulation line is
printed, and no order request appears among the effects. -/
theorem cycle_never_places_order_witness :
    Effect.orderPlaced ⟨"spot", "BTCUSDT", "Buy", "Market", 1⟩ ∉
      (execute_trade_logic strategy_config
        (Except.ok ⟨0, "OK", [⟨2, some 99⟩, ⟨1, some 100⟩]⟩)).effects ∧
    Effect.printed PrintLine.simulation ∈
      (execute_trade_logic strategy_config
        (Except.ok ⟨0, "OK", [⟨2, some 99⟩, ⟨1, some 100⟩]⟩)).effects := by
  have h := cycle_never_places_order strategy_config
    (Except.ok ⟨0, "OK", [⟨2, some 99⟩, ⟨1, some 100⟩]⟩)
  have hout : (execute_trade_logic strategy_config
      (Except.ok ⟨0, "OK", [⟨2, some 99⟩, ⟨1, some 100⟩]⟩)).outcome =
      CycleOutcome.simulated := by
    have h1 : computeRSI 14 [(100 : ℚ), 99] = [100, 0] := by
      norm_num [computeRSI, gainsOf, lossesOf, diffs, gainOf, lossOf, wAvgs, scanVals,
        wStep, rsiFromAvg, max_def]
    have h2 : computeEMA 50 [(100 : ℚ), 99] = [100, 199 / 2] := by
      norm_num [computeEMA, scanVals, emaStep]
    norm_num [execute_trade_logic, tryBody, buildCandleSeries, parseAll, parseCandle,
      computeRSIE, computeEMAE, h1, h2, evaluate, strategy_config, Except.map,
      List.getLast?_cons_cons, List.getLast?_singleton,
      decide_eq_true_eq, decide_eq_false_iff_not]
  exact ⟨h.1 _, h.2 hout⟩

/-- C1: failure isolation at the cycle boundary.  If the body of cycle
`i` raises any error (from the fetch, the series construction, or the
indicator computation), that cycle's outcome is the caught, reported
error — never a re-raise — and the scheduler loop still runs every
scheduled cycle: the run has one result per trigger and every cycle `j`
(later ones included) executes normally. -/
theorem scheduler_isolates_cycle_failures (scfg : StrategyConfig)
    (fetches : List (Except CoreError KlineResponse)) (i : ℕ) (e : CoreError)
    (hi : i < fetches.length)
    (hfail : (tryBody scfg (fetches.getD i (Except.ok defaultResp))).2 = Except.error e) :
    (schedulerRun scfg fetches).length = fetches.length ∧
    ((schedulerRun scfg fetches).getD i emptyResult).outcome = CycleOutcome.caughtError e ∧
    (∀ j, j < fetches.length →
      (schedulerRun scfg fetches).getD j emptyResult =
        execute_trade_logic scfg (fetches.getD j (Except.ok defaultResp))) := by
  refine ⟨schedulerRun_length scfg fetches, ?_, fun j hj => schedulerRun_getD scfg fetches j hj⟩
  rw [schedulerRun_getD scfg fetches i hi]
  rw [execute_trade_logic, hfail]

/-- Witness for C1: a two-cycle run whose first cycle's fetch raises; the
first cycle reports the caught error and the second cycle still runs. -/
theorem scheduler_isolates_cycle_failures_witness :
    (schedulerRun strategy_config
        [Except.error (CoreError.adapterError 1 "boom"), Except.ok defaultResp]).length = 2 ∧
    ((schedulerRun strategy_config
        [Except.error (CoreError.adapterError 1 "boom"), Except.ok defaultResp]).getD 0
          emptyResult).outcome = CycleOutcome.caughtError (CoreError.adapterError 1 "boom") ∧
    (schedulerRun strategy_config
        [Except.error (CoreError.adapterError 1 "boom"), Except.ok defaultResp]).getD 1
          emptyResult = execute_trade_logic strategy_config (Except.ok defaultResp) := by
  have h := scheduler_isolates_cycle_failures strategy_config
    [Except.error (CoreError.adapterError 1 "boom"), Except.ok defaultResp] 0
    (CoreError.adapterError 1 "boom") (by norm_num) rfl
  exact ⟨h.1, h.2.1, h.2.2 1 (by norm_num)⟩

end Pearl
